import Mathlib

/-!
Verification of the web content-acquisition engine of this repository
(`backend_app/services/scraper.py` and the `/scrape` endpoint retry loop of
`backend_app/api/v1.py`), as a shallow embedding in Lean 4.

Modelling conventions:
  * Python strings are `String` / `List Char`; regular-expression searches used
    by the source (all of which are simple literal/character-class patterns)
    are embedded as executable matching functions over `List Char`.
  * Network, browser and PDF-library effects are modelled as oracles carried in
    a `ScrapeEnv` record: each `_scrape_with_*` strategy is a function
    `String -> Except String FetchDict` (normal return or raised exception).
    Everything downstream of the fetch (validation, method dispatch,
    post-processing, result assembly, the batch filter, the endpoint retry
    loop) is embedded directly from the source.
  * Wall-clock fields of `ScrapedContent` (`timestamp`, `processing_time`) are
    not modelled: they are real-time measurements with no algorithmic content.
  * BeautifulSoup documents are modelled as a `Node`/`Forest` tree; the
    destructive `decompose` call of `_extract_text_content` is modelled as the
    pure function `stripForest`, with the extraction pipeline threading the
    (possibly mutated) document explicitly.
-/

namespace ScraperModel

/-- Whitespace class used by Python `str.strip`, `re` class backslash-s and the
text-cleanup pipeline (ASCII part; exotic Unicode whitespace is outside the
modelled alphabet). -/
def pyIsSpace (c : Char) : Bool :=
  c = ' ' || c = '\t' || c = '\n' || c = '\r' || c = '\x0b' || c = '\x0c'

/-- Python `str.strip()` on a character list. -/
def pyStrip (cs : List Char) : List Char :=
  ((cs.dropWhile pyIsSpace).reverse.dropWhile pyIsSpace).reverse

/-- Line-break characters recognised by Python `str.splitlines`
(ASCII part plus the common Unicode line separators). -/
def isLineBreak (c : Char) : Bool :=
  c = '\n' || c = '\r' || c = '\x0b' || c = '\x0c' ||
  c = '\x1c' || c = '\x1d' || c = '\x1e' || c = '\x85' ||
  c = ' ' || c = ' '

/-- Split at every line break (`"\r\n"` counting as one break), keeping every
piece including a trailing empty one. -/
def splitBreaksAux : List Char → List Char → List (List Char)
  | [], acc => [acc.reverse]
  | '\r' :: '\n' :: r, acc => acc.reverse :: splitBreaksAux r []
  | c :: r, acc =>
    if isLineBreak c then acc.reverse :: splitBreaksAux r []
    else splitBreaksAux r (c :: acc)

/-- Python `str.splitlines()`: split at line breaks (`"\r\n"` is one break),
with no piece after a terminal break, and no lines at all for the empty
string. -/
def pySplitLines : List Char → List (List Char)
  | [] => []
  | c :: r =>
    let ps := splitBreaksAux (c :: r) []
    if ps.getLast? = some [] then ps.dropLast else ps

/-- Python `str.split("  ")` (split on the exact two-space separator, keeping
empty pieces). -/
def splitTwoSpace : List Char → List Char → List (List Char)
  | [], acc => [acc.reverse]
  | ' ' :: ' ' :: r, acc => acc.reverse :: splitTwoSpace r []
  | c :: r, acc => splitTwoSpace r (c :: acc)

/-- Does `q` occur as a contiguous sublist of `cs`?  Models `re.search` of a
literal pattern. -/
def containsSub (q : List Char) : List Char → Bool
  | [] => q.isPrefixOf ([] : List Char)
  | c :: rest => q.isPrefixOf (c :: rest) || containsSub q rest

/-- Does `q` occur in `cs` with no newline strictly before the occurrence?
Models the reachable region of a regex `.*` (which does not cross `'\n'`). -/
def occursNoNl (q : List Char) : List Char → Bool
  | [] => q.isPrefixOf ([] : List Char)
  | c :: rest => q.isPrefixOf (c :: rest) || (c ≠ '\n' && occursNoNl q rest)

/-- `re.search` of `p .* q` for literals `p`, `q`: some occurrence of `p`
followed, with no intervening newline, by an occurrence of `q`. -/
def searchSeq (p q : List Char) : List Char → Bool
  | [] => false
  | c :: rest =>
    (p.isPrefixOf (c :: rest) && occursNoNl q ((c :: rest).drop p.length)) ||
    searchSeq p q rest

/-- The source's `pdf_patterns` test (`_determine_scraping_method` /
`_extract_pdfs`): case-insensitive `re.search` of `\.pdf$`, `/pdf/`,
`download.*\.pdf`, `document.*\.pdf`.  An unanchored `$` also matches just
before a final newline. -/
def matchesPdfPatterns (s : String) : Bool :=
  let l := s.data.map Char.toLower
  List.isSuffixOf ".pdf".data l ||
  List.isSuffixOf ".pdf\n".data l ||
  containsSub "/pdf/".data l ||
  searchSeq "download".data ".pdf".data l ||
  searchSeq "document".data ".pdf".data l

/-- The source's `gov_patterns` test: case-insensitive `re.search` of the five
literal government-domain patterns anywhere in the URL string. -/
def matchesGovPatterns (s : String) : Bool :=
  let l := s.data.map Char.toLower
  containsSub "indiacode.nic.in".data l ||
  containsSub "ugc.gov.in".data l ||
  containsSub "aicte-india.org".data l ||
  containsSub "education.gov.in".data l ||
  containsSub "egazette.nic.in".data l

/-- Split a character list at the first `':'`: `some (before, after)`, or
`none` when there is no colon. -/
def splitOnColon : List Char → Option (List Char × List Char)
  | [] => none
  | ':' :: r => some ([], r)
  | c :: r => (splitOnColon r).map (fun ab => (c :: ab.1, ab.2))

/-- Characters allowed in a URL scheme after the first (urllib `scheme_chars`). -/
def isSchemeChar (c : Char) : Bool :=
  c.isAlpha || c.isDigit || c = '+' || c = '-' || c = '.'

/-- The scheme/netloc splitting part of `urllib.parse.urlparse`: a scheme is
recognised only when the text before the first colon is nonempty, starts with
a letter and consists of scheme characters; a netloc is present only when the
remainder starts with `"//"`, and extends to the next `'/'`, `'?'` or `'#'`.
(Python-version-specific whitespace pre-stripping is not modelled.) -/
def parseSchemeNetloc (cs : List Char) : List Char × List Char :=
  let (scheme, rest) :=
    match splitOnColon cs with
    | some (pre, post) =>
      if pre ≠ [] && pre.all isSchemeChar &&
          (match pre with | c :: _ => c.isAlpha | [] => false) then
        (pre.map Char.toLower, post)
      else ([], cs)
    | none => ([], cs)
  let netloc :=
    match rest with
    | '/' :: '/' :: r => r.takeWhile (fun c => c ≠ '/' && c ≠ '?' && c ≠ '#')
    | _ => []
  (scheme, netloc)

/-- `AdvancedWebScraper._is_valid_url`: `urlparse(url)` followed by
`all([result.scheme, result.netloc])`. -/
def is_valid_url (url : String) : Bool :=
  let sn := parseSchemeNetloc url.data
  sn.1 ≠ [] && sn.2 ≠ []

/-- `AdvancedWebScraper._determine_scraping_method`: PDF patterns first, then
government patterns (dynamic rendering, availability-checked), else requests.
The availability flags model the module-level `SELENIUM_AVAILABLE` /
`PLAYWRIGHT_AVAILABLE` globals. -/
def determine_scraping_method (sel pw : Bool) (url : String) : String :=
  if matchesPdfPatterns url then "pdf"
  else if matchesGovPatterns url then
    (if sel then "selenium" else if pw then "playwright" else "requests")
  else "requests"

/-- A value stored in a scraped-content metadata dictionary (only the shapes
the verified claims inspect are distinguished). -/
inductive MetaValue where
  | s : String → MetaValue
  | list : List String → MetaValue
  | nat : Nat → MetaValue
deriving DecidableEq

/-- Python dict lookup on an association list (first binding wins; the update
below keeps keys unique). -/
def dictGet : List (String × MetaValue) → String → Option MetaValue
  | [], _ => none
  | (k', v') :: rest, k => if k' = k then some v' else dictGet rest k

/-- Python dict assignment `d[k] = v` on an association list. -/
def dictSet : List (String × MetaValue) → String → MetaValue → List (String × MetaValue)
  | [], k, v => [(k, v)]
  | (k', v') :: rest, k, v =>
    if k' = k then (k, v) :: rest else (k', v') :: dictSet rest k v

/-- A legal-citation pattern of `_process_government_content`: a literal word
part (lower-cased, spaces literal) followed either by `\.?\s*\d+` (the
`Act No` shape) or by `\s+\d+` (the `Section`/`Rule`/`Regulation` shape). -/
structure CitPat where
  word : List Char
  actStyle : Bool

/-- Case-insensitive match of a literal word at the head of `cs`, returning the
matched original characters and the remainder. -/
def matchWordCI : List Char → List Char → Option (List Char × List Char)
  | [], cs => some ([], cs)
  | _ :: _, [] => none
  | w :: ws, c :: cs =>
    if c.toLower = w then (matchWordCI ws cs).map (fun mr => (c :: mr.1, mr.2))
    else none

/-- Match `\s*\d+` (`requireWs = false`) or `\s+\d+` (`requireWs = true`) at
the head of `cs`, greedily, returning matched text and remainder.  (`\s`/`\d`
are modelled on their ASCII parts.) -/
def matchNumTail (requireWs : Bool) (cs : List Char) : Option (List Char × List Char) :=
  let ws := cs.takeWhile pyIsSpace
  let r1 := cs.drop ws.length
  if requireWs && ws.isEmpty then none
  else
    let ds := r1.takeWhile Char.isDigit
    if ds.isEmpty then none else some (ws ++ ds, r1.drop ds.length)

/-- Match `\.?\s*\d+` at the head of `cs` (optional dot tried greedily first,
as the regex engine does). -/
def matchActTail : List Char → Option (List Char × List Char)
  | '.' :: rest =>
    match matchNumTail false rest with
    | some mr => some ('.' :: mr.1, mr.2)
    | none => matchNumTail false ('.' :: rest)
  | cs => matchNumTail false cs

/-- Match one citation pattern at the head of `cs`. -/
def matchCitAt (p : CitPat) (cs : List Char) : Option (List Char × List Char) :=
  match matchWordCI p.word cs with
  | none => none
  | some mr1 =>
    match (if p.actStyle then matchActTail mr1.2 else matchNumTail true mr1.2) with
    | none => none
    | some mr2 => some (mr1.1 ++ mr2.1, mr2.2)

/-- `re.findall` scan for one citation pattern: try a match at each position,
left to right, non-overlapping; fuelled by the input length (every match
consumes at least the pattern's word, so the fuel never runs out). -/
def findAllAux (p : CitPat) : Nat → List Char → List (List Char)
  | 0, _ => []
  | _ + 1, [] => []
  | fuel + 1, c :: rest =>
    match matchCitAt p (c :: rest) with
    | some mr => mr.1 :: findAllAux p fuel mr.2
    | none => findAllAux p fuel rest

/-- All matches of one citation pattern in a string, in scan order. -/
def findAllMatches (p : CitPat) (s : String) : List String :=
  (findAllAux p s.data.length s.data).map (fun m => String.mk m)

/-- The source's `act_patterns` of `_process_government_content`:
`Act No\.?\s*\d+`, `Section\s+\d+`, `Rule\s+\d+`, `Regulation\s+\d+`
(all searched with `re.IGNORECASE`). -/
def act_patterns : List CitPat :=
  [⟨"act no".data, true⟩, ⟨"section".data, false⟩,
   ⟨"rule".data, false⟩, ⟨"regulation".data, false⟩]

/-- `found_patterns`: the concatenated `re.findall` results over
`act_patterns`, in pattern-major order as the source's loop produces them. -/
def citationMatches (content : String) : List String :=
  (act_patterns.map (fun p => findAllMatches p content)).flatten

/-- Following the spec's wording only (§4.4): the claimed six-pattern set,
adding `Notification No. <n>` and `Circular No. <n>` to the four patterns the
code has.  Used solely to compare the code's behaviour with the claim. -/
def specCitationPatterns : List CitPat :=
  act_patterns ++ [⟨"notification no".data, true⟩, ⟨"circular no".data, true⟩]

/-- Matches of the spec's claimed six-pattern set, in the same scan order. -/
def specCitationMatches (content : String) : List String :=
  (specCitationPatterns.map (fun p => findAllMatches p content)).flatten

/-- Character class kept by `_clean_text`'s second substitution
(`[^\w\s\.\,\!\?\;\:\-\(\)\[\]\"\']` is removed): word characters (ASCII part
of `\w`), whitespace, and the listed punctuation. -/
def cleanKeepChar (c : Char) : Bool :=
  c.isAlphanum || c = '_' || pyIsSpace c ||
  c = '.' || c = ',' || c = '!' || c = '?' || c = ';' || c = ':' ||
  c = '-' || c = '(' || c = ')' || c = '[' || c = ']' || c = '"' || c = '\''

/-- Collapse runs of adjacent spaces to a single space. -/
def collapseSpaces : List Char → List Char
  | [] => []
  | [c] => [c]
  | c1 :: c2 :: r =>
    if c1 = ' ' && c2 = ' ' then collapseSpaces (c2 :: r)
    else c1 :: collapseSpaces (c2 :: r)

/-- `AdvancedWebScraper._clean_text`: `re.sub(r'\s+', ' ', text)` (modelled as
mapping every whitespace character to a space and collapsing runs), then
removal of characters outside the kept class, then `str.strip()`. -/
def clean_text (s : String) : String :=
  let collapsed := collapseSpaces (s.data.map (fun c => if pyIsSpace c then ' ' else c))
  let kept := collapsed.filter cleanKeepChar
  String.mk (pyStrip kept)

/-- The dictionary a `_scrape_with_*` strategy returns (every strategy of the
source populates all six keys). -/
structure FetchDict where
  title : String
  content : String
  images : List String
  links : List String
  pdfs : List String
  metadata : List (String × MetaValue)
deriving DecidableEq

/-- `AdvancedWebScraper._process_government_content`: set
`metadata['source_type'] = 'government'`; when the content is nonempty (Python
truthiness) scan it with `act_patterns` and, only when at least one match was
found, store the deduplicated match list under `metadata['legal_references']`
(`list(set(...))` — order unspecified, modelled as `List.dedup`; the verified
statements use only membership and duplicate-freedom). -/
def process_government_content (content : FetchDict) (_url : String) : FetchDict :=
  let md := dictSet content.metadata "source_type" (MetaValue.s "government")
  if content.content = "" then { content with metadata := md }
  else
    let found := citationMatches content.content
    if found.isEmpty then { content with metadata := md }
    else
      { content with
        metadata := dictSet md "legal_references" (MetaValue.list found.dedup) }

/-- `AdvancedWebScraper._post_process_content`: clean the content when nonempty
(Python truthiness), then apply government processing when the URL matches a
government pattern. -/
def post_process_content (content : FetchDict) (url : String) : FetchDict :=
  let c1 :=
    if content.content = "" then content
    else { content with content := clean_text content.content }
  if matchesGovPatterns url then process_government_content c1 url else c1

/-- The `ScrapedContent` dataclass (wall-clock fields `timestamp` and
`processing_time` are not modelled — see the header). -/
structure ScrapedContent where
  url : String
  title : String
  content : String
  images : List String
  links : List String
  pdfs : List String
  metadata : List (String × MetaValue)
  status : String
  method_used : String
deriving DecidableEq

/-- The runtime environment of one `AdvancedWebScraper`: the module-level
availability flags and the four fetch strategies as oracles, each returning
the strategy's dictionary or a raised exception's message. -/
structure ScrapeEnv where
  selenium_available : Bool
  playwright_available : Bool
  scrape_with_selenium : String → Except String FetchDict
  scrape_with_playwright : String → Except String FetchDict
  scrape_pdf : String → Except String FetchDict
  scrape_with_requests : String → Except String FetchDict

/-- The name of the strategy the dispatch chain of `scrape_url` (lines
143-150) actually invokes for a resolved `method`. -/
def executedStrategyName (sel pw : Bool) (method : String) : String :=
  if method = "selenium" && sel then "selenium"
  else if method = "playwright" && pw then "playwright"
  else if method = "pdf" then "pdf"
  else "requests"

/-- The dispatch chain of `scrape_url`: `selenium` and `playwright` run only
when available, `pdf` always, and everything else falls to requests. -/
def runStrategy (env : ScrapeEnv) (method url : String) : Except String FetchDict :=
  if method = "selenium" && env.selenium_available then env.scrape_with_selenium url
  else if method = "playwright" && env.playwright_available then env.scrape_with_playwright url
  else if method = "pdf" then env.scrape_pdf url
  else env.scrape_with_requests url

/-- The `except` branch of `scrape_url`: an error-status record with
`title='Error'`, `content='Scraping failed: ...'`, empty sequences and empty
metadata, `method_used` holding the current value of the `method` variable. -/
def errorResult (url method msg : String) : ScrapedContent :=
  { url := url, title := "Error", content := "Scraping failed: " ++ msg,
    images := [], links := [], pdfs := [], metadata := [],
    status := "error", method_used := method }

/-- `AdvancedWebScraper.scrape_url`, instrumented: besides the returned
`ScrapedContent`, the second component lists the fetch strategies actually
invoked (empty exactly when no network-touching strategy ran).  Control flow
follows the source: validate (an invalid URL raises before `method` is
reassigned), resolve `'auto'` through the classifier, dispatch, post-process,
assemble; any raise is caught into the error record. -/
def scrapeUrlT (env : ScrapeEnv) (url : String) (method : String) :
    ScrapedContent × List String :=
  if is_valid_url url = false then
    (errorResult url method ("Invalid URL: " ++ url), [])
  else
    let m := if method = "auto" then
        determine_scraping_method env.selenium_available env.playwright_available url
      else method
    let strat := executedStrategyName env.selenium_available env.playwright_available m
    match runStrategy env m url with
    | Except.error e => (errorResult url m e, [strat])
    | Except.ok c =>
      let c2 := post_process_content c url
      ({ url := url, title := c2.title, content := c2.content,
         images := c2.images, links := c2.links, pdfs := c2.pdfs,
         metadata := c2.metadata, status := "success", method_used := m },
       [strat])

/-- `AdvancedWebScraper.scrape_url`: the record the caller receives. -/
def scrape_url (env : ScrapeEnv) (url : String) (method : String) : ScrapedContent :=
  (scrapeUrlT env url method).1

/-- Outcome of the `/scrape` endpoint's retry loop (`api/v1.py` lines
333-345): the successful result if any, the last stored exception, the backoff
sleeps performed (in seconds, in order), and how many times the attempt ran. -/
structure RetryOutcome (ε α : Type) where
  result : Option α
  lastError : Option ε
  sleeps : List Nat
  calls : Nat
deriving DecidableEq

/-- The body of `for attempt in range(max_retries)`: try the attempt, break on
success; on an exception store it and, when further attempts remain, sleep
`2 ** attempt` seconds.  `remaining` is the number of loop iterations left and
`i` the current attempt index. -/
def retryLoop (attempt : Nat → Except ε α) :
    Nat → Nat → Option ε → List Nat → Nat → RetryOutcome ε α
  | 0, _, le, ss, calls => ⟨none, le, ss, calls⟩
  | remaining + 1, i, le, ss, calls =>
    match attempt i with
    | Except.ok a => ⟨some a, le, ss, calls + 1⟩
    | Except.error e =>
      if remaining = 0 then ⟨none, some e, ss, calls + 1⟩
      else retryLoop attempt remaining (i + 1) (some e) (ss ++ [2 ^ i]) (calls + 1)

/-- The `/scrape` endpoint's retry controller around one attempt function
(`attempt i` is the outcome of the `i`-th call, `i` starting at 0). -/
def scrapeWithRetry (attempt : Nat → Except ε α) (max_retries : Nat) : RetryOutcome ε α :=
  retryLoop attempt max_retries 0 none [] 0

/-- The result-filtering loop of `scrape_multiple_urls`: keep the values that
are `ScrapedContent` instances, drop (and log) raised exceptions. -/
def filterScraped : List (Except String ScrapedContent) → List ScrapedContent
  | [] => []
  | Except.ok r :: rest => r :: filterScraped rest
  | Except.error _ :: rest => filterScraped rest

/-- `AdvancedWebScraper.scrape_multiple_urls`: gather every per-URL call's
outcome (`asyncio.gather(..., return_exceptions=True)` preserves argument
order), then filter out exceptions.  `run` models the per-URL task outcome;
the semaphore bounds scheduling only and does not affect the value returned. -/
def scrape_multiple_urls (run : String → Except String ScrapedContent)
    (urls : List String) : List ScrapedContent :=
  filterScraped (urls.map run)

mutual
/-- A parsed HTML node (BeautifulSoup tag or string). -/
inductive Node where
  | text : String → Node
  | elem : String → List (String × String) → Forest → Node
/-- A sequence of sibling nodes (children of a tag, or the whole soup). -/
inductive Forest where
  | nil : Forest
  | cons : Node → Forest → Forest
end

/-- First attribute binding, as BeautifulSoup `tag.get`. -/
def attrGet : List (String × String) → String → Option String
  | [], _ => none
  | (k', v') :: rest, k => if k' = k then some v' else attrGet rest k

mutual
/-- `get_text()` of one node: concatenation of all contained strings in
document order. -/
def getTextN : Node → String
  | Node.text s => s
  | Node.elem _ _ cs => getTextF cs
/-- `get_text()` over a forest. -/
def getTextF : Forest → String
  | Forest.nil => ""
  | Forest.cons n f => getTextN n ++ getTextF f
end

/-- The element names removed by `_extract_text_content`'s decompose loop. -/
def removedTags : List String := ["script", "style", "nav", "footer", "header"]

mutual
/-- Decompose step on one node: `none` when the node is a removed element
(its whole subtree goes away), otherwise the node with stripped children. -/
def stripNode : Node → Option Node
  | Node.text s => some (Node.text s)
  | Node.elem t a cs =>
    if removedTags.contains t then none else some (Node.elem t a (stripForest cs))
/-- `soup(["script", "style", "nav", "footer", "header"])` + `decompose()`:
remove every such element, at any depth, from the tree. -/
def stripForest : Forest → Forest
  | Forest.nil => Forest.nil
  | Forest.cons n f =>
    match stripNode n with
    | none => stripForest f
    | some m => Forest.cons m (stripForest f)
end

mutual
/-- BeautifulSoup `soup.find(tag)`: first element with the given name in
depth-first pre-order, the node itself before its descendants. -/
def findFirstN (t : String) : Node → Option Node
  | Node.text _ => none
  | Node.elem tg a cs =>
    if tg = t then some (Node.elem tg a cs) else findFirstF t cs
/-- `find` over a forest. -/
def findFirstF (t : String) : Forest → Option Node
  | Forest.nil => none
  | Forest.cons n f =>
    match findFirstN t n with
    | some m => some m
    | none => findFirstF t f
end

mutual
/-- `src` values collected by `_extract_images`' loop over
`soup.find_all('img')` (document pre-order; absent or empty `src` skipped). -/
def imgSrcsN : Node → List String
  | Node.text _ => []
  | Node.elem t a cs =>
    (if t = "img" then
      match attrGet a "src" with
      | some s => if s = "" then [] else [s]
      | none => []
    else []) ++ imgSrcsF cs
/-- Image sources over a forest. -/
def imgSrcsF : Forest → List String
  | Forest.nil => []
  | Forest.cons n f => imgSrcsN n ++ imgSrcsF f
end

mutual
/-- `href` values of `soup.find_all('a', href=True)` in document pre-order
(the truthiness filter drops absent and empty attributes). -/
def anchorHrefsN : Node → List String
  | Node.text _ => []
  | Node.elem t a cs =>
    (if t = "a" then
      match attrGet a "href" with
      | some h => if h = "" then [] else [h]
      | none => []
    else []) ++ anchorHrefsF cs
/-- Anchor hrefs over a forest. -/
def anchorHrefsF : Forest → List String
  | Forest.nil => []
  | Forest.cons n f => anchorHrefsN n ++ anchorHrefsF f
end

/-- `AdvancedWebScraper._extract_title`: `<title>` text stripped, else first
`<h1>` text stripped, else `"Untitled"`. -/
def extract_title (f : Forest) : String :=
  match findFirstF "title" f with
  | some n => String.mk (pyStrip (getTextN n).data)
  | none =>
    match findFirstF "h1" f with
    | some n => String.mk (pyStrip (getTextN n).data)
    | none => "Untitled"

/-- The whitespace-normalisation pipeline of `_extract_text_content`:
splitlines, strip each line, split each line on two spaces, strip each phrase,
join the nonempty chunks with single spaces. -/
def cleanupText (s : String) : String :=
  let lines := (pySplitLines s.data).map pyStrip
  let chunks := (lines.map (fun l => (splitTwoSpace l []).map pyStrip)).flatten
  String.mk (List.intercalate [' '] (chunks.filter (fun c => c ≠ [])))

/-- `AdvancedWebScraper._extract_text_content`: destructively decompose the
removed elements, then collect and normalise the remaining text.  The second
component is the document as left behind by the mutation. -/
def extract_text_content (f : Forest) : String × Forest :=
  let f2 := stripForest f
  (cleanupText (getTextF f2), f2)

/-- `AdvancedWebScraper._extract_images` (with `join` standing for
`urllib.parse.urljoin`). -/
def extract_images (join : String → String → String) (f : Forest) (base : String) :
    List String :=
  (imgSrcsF f).map (fun src => join base src)

/-- `AdvancedWebScraper._extract_links`. -/
def extract_links (join : String → String → String) (f : Forest) (base : String) :
    List String :=
  (anchorHrefsF f).map (fun href => join base href)

/-- `AdvancedWebScraper._extract_pdfs`: same anchor traversal, but only hrefs
matching a PDF pattern (tested on the href before resolution). -/
def extract_pdfs (join : String → String → String) (f : Forest) (base : String) :
    List String :=
  ((anchorHrefsF f).filter (fun href => matchesPdfPatterns href)).map
    (fun href => join base href)

/-- The five extracted fields of the content-extraction step. -/
structure ExtractedFields where
  title : String
  content : String
  images : List String
  links : List String
  pdfs : List String
deriving DecidableEq

/-- The extraction step as the HTML scrapers perform it (lines 221-225,
284-288, 333-337): title from the document as given, then the destructive
text extraction, then images/links/pdfs from the document it left behind.
The second component is the document state after the step. -/
def extract_all (join : String → String → String) (f : Forest) (base : String) :
    ExtractedFields × Forest :=
  let title := extract_title f
  let cf := extract_text_content f
  (⟨title, cf.1,
    extract_images join cf.2 base,
    extract_links join cf.2 base,
    extract_pdfs join cf.2 base⟩, cf.2)

/-- A concrete strategy dictionary for closed examples. -/
def fetchOkDict : FetchDict :=
  { title := "Policy", content := "Body text", images := [], links := [],
    pdfs := [], metadata := [("status_code", MetaValue.nat 200)] }

/-- A concrete environment in which every strategy raises and no dynamic
engine is installed. -/
def envAllFail : ScrapeEnv :=
  { selenium_available := false, playwright_available := false,
    scrape_with_selenium := fun _ => Except.error "selenium boom",
    scrape_with_playwright := fun _ => Except.error "playwright boom",
    scrape_pdf := fun _ => Except.error "pdf boom",
    scrape_with_requests := fun _ => Except.error "requests boom" }

/-- A concrete environment with Selenium missing, Playwright installed, and a
working requests strategy. -/
def envRequestsOnly : ScrapeEnv :=
  { selenium_available := false, playwright_available := true,
    scrape_with_selenium := fun _ => Except.error "selenium boom",
    scrape_with_playwright := fun _ => Except.error "playwright boom",
    scrape_pdf := fun _ => Except.error "pdf boom",
    scrape_with_requests := fun _ => Except.ok fetchOkDict }

/-- A concrete government URL (host `www.ugc.gov.in`). -/
def govUrl : String := "https://www.ugc.gov.in/doc"

/-- A fetched dictionary whose content carries a citation of the
`Notification No.` shape and none of the four shapes the code scans for. -/
def govNotifDict : FetchDict :=
  { title := "T", content := "Notification No. 12", images := [], links := [],
    pdfs := [], metadata := [] }

/-- A fetched dictionary whose content repeats one citation, to exercise
deduplication. -/
def govSectionDict : FetchDict :=
  { title := "T", content := "Section 5 and Section 5", images := [],
    links := [], pdfs := [], metadata := [] }

/-- A concrete document whose only `<title>` sits inside a `<header>` element
(which the destructive text extraction removes), next to an `<h1>`. -/
def hiddenTitleDoc : Forest :=
  Forest.cons
    (Node.elem "header" []
      (Forest.cons (Node.elem "title" [] (Forest.cons (Node.text "X") Forest.nil))
        Forest.nil))
    (Forest.cons (Node.elem "h1" [] (Forest.cons (Node.text "Y") Forest.nil))
      Forest.nil)

/-- A concrete stand-in URL resolver for closed examples (claims about the
extractors hold for every resolver, which is universally quantified there). -/
def joinKeep : String → String → String := fun _ href => href

/-- A concrete successful result for batch examples. -/
def scOk : ScrapedContent :=
  { url := "https://a.example/", title := "A", content := "ok", images := [],
    links := [], pdfs := [], metadata := [], status := "success",
    method_used := "requests" }

/-- A concrete error-status result (a normally completed call). -/
def scErr : ScrapedContent := errorResult "https://b.example/" "requests" "boom"

/-- A concrete per-URL outcome map for batch examples: one success, one
normally returned error-status record, one raised exception. -/
def runBatch : String → Except String ScrapedContent := fun u =>
  if u = "https://a.example/" then Except.ok scOk
  else if u = "https://b.example/" then Except.ok scErr
  else Except.error "RuntimeError"

/-- A concrete document whose `<title>` is not inside any removed element. -/
def plainDoc : Forest :=
  Forest.cons (Node.elem "title" [] (Forest.cons (Node.text "Policy") Forest.nil))
    (Forest.cons (Node.elem "p" [] (Forest.cons (Node.text "Hi") Forest.nil))
      Forest.nil)

theorem dictGet_dictSet_same (m : List (String × MetaValue)) (k : String) (v : MetaValue) :
    dictGet (dictSet m k v) k = some v := by
  induction m with
  | nil => simp [dictSet, dictGet]
  | cons kv rest ih =>
    by_cases h : kv.1 = k
    · simp [dictSet, dictGet, h]
    · simp [dictSet, dictGet, h, ih]

theorem dictGet_dictSet_ne (m : List (String × MetaValue)) (k k' : String)
    (v : MetaValue) (h : k ≠ k') :
    dictGet (dictSet m k v) k' = dictGet m k' := by
  induction m with
  | nil => simp [dictSet, dictGet, h]
  | cons kv rest ih =>
    by_cases hk : kv.1 = k
    · simp [dictSet, dictGet, hk, h]
    · by_cases hk' : kv.1 = k'
      · have h2 : ¬(k' = k) := fun e => h e.symm
        simp [dictSet, dictGet, hk, hk', h2]
      · simp [dictSet, dictGet, hk, hk', ih]

mutual
theorem stripNode_idem : (n m : Node) → stripNode n = some m → stripNode m = some m
  | Node.text s, m, h => by
    simp only [stripNode] at h
    injection h with h'
    subst h'
    simp only [stripNode]
  | Node.elem t a cs, m, h => by
    simp only [stripNode] at h
    by_cases ht : removedTags.contains t
    · rw [if_pos ht] at h; exact absurd h (by simp)
    · rw [if_neg ht] at h
      injection h with h'
      subst h'
      simp only [stripNode, if_neg ht, stripForest_idem cs]
theorem stripForest_idem : (f : Forest) → stripForest (stripForest f) = stripForest f
  | Forest.nil => rfl
  | Forest.cons n f => by
    simp only [stripForest]
    cases hn : stripNode n with
    | none => exact stripForest_idem f
    | some m =>
      simp only [stripForest, stripNode_idem n m hn, stripForest_idem f]
end

/-- C1: for every URL string and every requested method, `scrape_url` returns
exactly one `ScrapedContent` whose status is either `success` or `error`.  The
embedding makes the non-propagation part structural: `scrape_url` is a total
function, every internal failure (invalid URL, fetch exception) flowing into
the `errorResult` branch rather than escaping. -/
theorem C1_scrape_url_total_status (env : ScrapeEnv) (url method : String) :
    (scrape_url env url method).status = "success" ∨
    (scrape_url env url method).status = "error" := by
  unfold scrape_url scrapeUrlT
  by_cases hv : is_valid_url url = false
  · simp [hv, errorResult]
  · simp only [hv, if_false]
    cases hr : runStrategy env
        (if method = "auto" then
          determine_scraping_method env.selenium_available env.playwright_available url
        else method) url with
    | error e => simp [hr, errorResult]
    | ok c => simp [hr]

/-- C2: every error-status result of `scrape_url` carries a human-readable
failure description (the `'Scraping failed: '` message built from the caught
exception) and empty `images`/`links`/`pdfs` sequences. -/
theorem C2_error_result_shape (env : ScrapeEnv) (url method : String)
    (h : (scrape_url env url method).status = "error") :
    (scrape_url env url method).images = [] ∧
    (scrape_url env url method).links = [] ∧
    (scrape_url env url method).pdfs = [] ∧
    ∃ msg, (scrape_url env url method).content = "Scraping failed: " ++ msg := by
  unfold scrape_url scrapeUrlT at *
  by_cases hv : is_valid_url url = false
  · simp [hv, errorResult] at *
  · simp only [hv, if_false] at *
    cases hr : runStrategy env
        (if method = "auto" then
          determine_scraping_method env.selenium_available env.playwright_available url
        else method) url with
    | error e => simp [hr, errorResult]
    | ok c => simp [hr] at h

/-- Witness for C2 at a concrete input: an invalid URL produces an
error-status record, and the shape facts follow by the theorem. -/
theorem C2_error_result_shape_witness :
    (scrape_url envAllFail "not a url" "auto").status = "error" ∧
    ((scrape_url envAllFail "not a url" "auto").images = [] ∧
     (scrape_url envAllFail "not a url" "auto").links = [] ∧
     (scrape_url envAllFail "not a url" "auto").pdfs = [] ∧
     ∃ msg, (scrape_url envAllFail "not a url" "auto").content = "Scraping failed: " ++ msg) :=
  ⟨rfl, C2_error_result_shape envAllFail "not a url" "auto" rfl⟩

/-- C3: for every URL failing syntactic validation, `scrape_url` returns an
error-status result and the instrumented trace of invoked fetch strategies is
empty — the fetch branch is unreachable, so no network call is made. -/
theorem C3_invalid_url_no_fetch (env : ScrapeEnv) (url method : String)
    (h : is_valid_url url = false) :
    (scrapeUrlT env url method).2 = [] ∧
    (scrapeUrlT env url method).1.status = "error" := by
  unfold scrapeUrlT
  simp [h, errorResult]

/-- Witness for C3 at the spec's own example input `"not a url"`. -/
theorem C3_invalid_url_no_fetch_witness :
    is_valid_url "not a url" = false ∧
    (scrapeUrlT envAllFail "not a url" "auto").2 = [] ∧
    (scrapeUrlT envAllFail "not a url" "auto").1.status = "error" :=
  ⟨rfl, C3_invalid_url_no_fetch envAllFail "not a url" "auto" rfl⟩

/-- C4: any URL matching a PDF-indicating pattern is classified `pdf`,
regardless of its host — the PDF rule is tested before the government rule and
before any availability check, so neither flag matters. -/
theorem C4_pdf_pattern_wins (sel pw : Bool) (url : String)
    (h : matchesPdfPatterns url = true) :
    determine_scraping_method sel pw url = "pdf" := by
  unfold determine_scraping_method
  simp [h]

/-- Witness for C4 at a URL that is simultaneously on a government host and a
PDF pattern: the classifier still selects `pdf`. -/
theorem C4_pdf_pattern_wins_witness :
    matchesPdfPatterns "https://ugc.gov.in/docs/report.pdf" = true ∧
    matchesGovPatterns "https://ugc.gov.in/docs/report.pdf" = true ∧
    determine_scraping_method false false "https://ugc.gov.in/docs/report.pdf" = "pdf" :=
  ⟨rfl, rfl, C4_pdf_pattern_wins false false "https://ugc.gov.in/docs/report.pdf" rfl⟩

/-- C10: for every resolver, parsed document and base URL, the extracted
`pdfs` sequence is a subsequence of the extracted `links` sequence — both are
drawn from the same anchor traversal in document order, `pdfs` merely
filtering it; in particular every entry of `pdfs` also appears in `links`. -/
theorem C10_pdfs_sublist_of_links (join : String → String → String)
    (f : Forest) (base : String) :
    List.Sublist (extract_pdfs join f base) (extract_links join f base) := by
  unfold extract_pdfs extract_links
  exact List.Sublist.map _ (List.filter_sublist _)

theorem process_gov_content_eq (c : FetchDict) (url : String) :
    (process_government_content c url).content = c.content := by
  simp only [process_government_content]
  split
  · rfl
  · split <;> rfl

theorem process_gov_spec (c : FetchDict) (url : String)
    (hl : dictGet c.metadata "legal_references" = none) :
    dictGet (process_government_content c url).metadata "source_type" =
      some (MetaValue.s "government") ∧
    (∀ l, dictGet (process_government_content c url).metadata "legal_references" =
        some (MetaValue.list l) →
      l.Nodup ∧ ∀ s, s ∈ l ↔ s ∈ citationMatches c.content) ∧
    (citationMatches c.content = [] ↔
      dictGet (process_government_content c url).metadata "legal_references" = none) := by
  have hne : ("source_type" : String) ≠ "legal_references" := by decide
  simp only [process_government_content]
  by_cases hc : c.content = ""
  · rw [if_pos hc]
    refine ⟨dictGet_dictSet_same _ _ _, ?_, ?_⟩
    · intro l hl2
      rw [dictGet_dictSet_ne _ _ _ _ hne, hl] at hl2
      exact absurd hl2 (by simp)
    · rw [dictGet_dictSet_ne _ _ _ _ hne, hl, hc]
      simp [citationMatches, act_patterns, findAllMatches, findAllAux]
  · rw [if_neg hc]
    by_cases hf : (citationMatches c.content).isEmpty
    · rw [if_pos hf]
      refine ⟨dictGet_dictSet_same _ _ _, ?_, ?_⟩
      · intro l hl2
        rw [dictGet_dictSet_ne _ _ _ _ hne, hl] at hl2
        exact absurd hl2 (by simp)
      · rw [dictGet_dictSet_ne _ _ _ _ hne, hl]
        simp [List.isEmpty_iff.mp hf]
    · rw [if_neg hf]
      refine ⟨?_, ?_, ?_⟩
      · rw [dictGet_dictSet_ne _ _ _ _ (Ne.symm hne)]
        exact dictGet_dictSet_same _ _ _
      · intro l hl2
        rw [dictGet_dictSet_same] at hl2
        injection hl2 with hl3
        injection hl3 with hl4
        subst hl4
        exact ⟨List.nodup_dedup _, fun s => List.mem_dedup⟩
      · rw [dictGet_dictSet_same]
        simp [List.isEmpty_iff] at hf
        simp [hf]

/-- C5 counterexample: on a government URL whose cleaned content contains the
citation `"Notification No. 12"` (a match of the spec's claimed six-pattern
set) and nothing matching the code's four patterns, the post-processed result
has NO `legal_references` entry at all — the code neither knows the
`Notification No.`/`Circular No.` patterns nor stores an entry when its own
four patterns found nothing, refuting the claimed equality with the
deduplicated six-pattern match set. -/
theorem C5_counterexample :
    matchesGovPatterns govUrl = true ∧
    (post_process_content govNotifDict govUrl).content = "Notification No. 12" ∧
    specCitationMatches (post_process_content govNotifDict govUrl).content =
      ["Notification No. 12"] ∧
    dictGet (post_process_content govNotifDict govUrl).metadata "legal_references" = none ∧
    dictGet (post_process_content govNotifDict govUrl).metadata "source_type" =
      some (MetaValue.s "government") :=
  ⟨rfl, rfl, rfl, rfl, rfl⟩

/-- C5 amended: for every fetched dictionary (with no pre-existing
`legal_references` key, as the strategies never set one) and every URL
matching a government pattern, the post-processor sets
`metadata['source_type'] = 'government'`, and `metadata['legal_references']`,
which is present exactly when the code's four case-insensitive citation
patterns (`Act No. <n>`, `Section <n>`, `Rule <n>`, `Regulation <n>`) match
the cleaned content at all, then holds the deduplicated set of those matches
(duplicate-free, same members). -/
theorem C5_amended_gov_postprocessing (x : FetchDict) (url : String)
    (hg : matchesGovPatterns url = true)
    (hl : dictGet x.metadata "legal_references" = none) :
    dictGet (post_process_content x url).metadata "source_type" =
      some (MetaValue.s "government") ∧
    (∀ l, dictGet (post_process_content x url).metadata "legal_references" =
        some (MetaValue.list l) →
      l.Nodup ∧ ∀ s, s ∈ l ↔ s ∈ citationMatches (post_process_content x url).content) ∧
    (citationMatches (post_process_content x url).content = [] ↔
      dictGet (post_process_content x url).metadata "legal_references" = none) := by
  simp only [post_process_content, hg, if_true]
  by_cases hxc : x.content = ""
  · rw [if_pos hxc]
    have h := process_gov_spec x url hl
    rw [process_gov_content_eq]
    exact h
  · rw [if_neg hxc]
    have h := process_gov_spec { x with content := clean_text x.content } url hl
    rw [process_gov_content_eq]
    exact h

/-- Witness for the amended C5 at a concrete government URL with a repeated
citation: `source_type` is set, and `legal_references` is the deduplicated
singleton. -/
theorem C5_amended_witness :
    dictGet (post_process_content govSectionDict govUrl).metadata "source_type" =
      some (MetaValue.s "government") ∧
    dictGet (post_process_content govSectionDict govUrl).metadata "legal_references" =
      some (MetaValue.list ["Section 5"]) ∧
    (["Section 5"] : List String).Nodup ∧
    "Section 5" ∈ citationMatches (post_process_content govSectionDict govUrl).content := by
  have h := C5_amended_gov_postprocessing govSectionDict govUrl rfl rfl
  have h2 := h.2.1 ["Section 5"] (by rfl)
  exact ⟨h.1, by rfl, h2.1, (h2.2 "Section 5").mp (by simp)⟩

theorem retryLoop_step {ε α : Type} (attempt : Nat → Except ε α)
    (rem i : Nat) (le : Option ε) (ss : List Nat) (calls : Nat) (e : ε)
    (h : attempt i = Except.error e) :
    retryLoop attempt (rem + 1) i le ss calls =
      if rem = 0 then ⟨none, some e, ss, calls + 1⟩
      else retryLoop attempt rem (i + 1) (some e) (ss ++ [2 ^ i]) (calls + 1) := by
  simp only [retryLoop, h]

theorem retryLoop_allFail {ε α : Type} (attempt : Nat → Except ε α) (errs : Nat → ε)
    (r : Nat) :
    ∀ (i : Nat) (le : Option ε) (ss : List Nat) (calls : Nat),
      1 ≤ r → (∀ j, i ≤ j → j < i + r → attempt j = Except.error (errs j)) →
      retryLoop attempt r i le ss calls =
        ⟨none, some (errs (i + r - 1)),
         ss ++ (List.range' i (r - 1)).map (fun k => 2 ^ k), calls + r⟩ := by
  induction r with
  | zero => intro i le ss calls h1 _; omega
  | succ r ih =>
    intro i le ss calls _ hfail
    have hi : attempt i = Except.error (errs i) := hfail i (Nat.le_refl i) (by omega)
    cases r with
    | zero =>
      rw [retryLoop_step attempt 0 i le ss calls (errs i) hi, if_pos rfl]
      simp [List.range', Nat.add_sub_cancel]
    | succ r' =>
      rw [retryLoop_step attempt (r' + 1) i le ss calls (errs i) hi,
        if_neg (Nat.succ_ne_zero r')]
      have h2 := ih (i + 1) (some (errs i)) (ss ++ [2 ^ i]) (calls + 1)
        (by omega) (fun j hj1 hj2 => hfail j (by omega) (by omega))
      rw [h2]
      have hidx : i + 1 + (r' + 1) - 1 = i + (r' + 1 + 1) - 1 := by omega
      have hcalls : calls + 1 + (r' + 1) = calls + (r' + 1 + 1) := by omega
      rw [hidx, hcalls, List.append_assoc]
      simp [List.range', Nat.add_sub_cancel]

/-- C6: the `/scrape` endpoint's retry controller, given an attempt function
that always fails and `max_retries = N` (with at least one attempt), calls the
attempt exactly `N` times, sleeps `2 ^ attemptIndex` seconds between attempts
(index from 0, no sleep after the last), ends with no result, and the
exception it surfaces (the HTTP 500 detail) carries the last underlying
error. -/
theorem C6_retry_always_fails {ε α : Type} (attempt : Nat → Except ε α)
    (errs : Nat → ε) (N : Nat) (hN : 1 ≤ N)
    (hfail : ∀ j, j < N → attempt j = Except.error (errs j)) :
    scrapeWithRetry attempt N =
      ⟨none, some (errs (N - 1)), (List.range (N - 1)).map (fun k => 2 ^ k), N⟩ := by
  unfold scrapeWithRetry
  have h := retryLoop_allFail attempt errs N 0 none [] 0 hN
    (fun j _ hj => hfail j (by omega))
  simpa [List.range_eq_range'] using h

/-- Witness for C6: three attempts that always raise give exactly three calls,
backoff sleeps of 1 and 2 seconds, and the last error surfaced. -/
theorem C6_retry_always_fails_witness :
    scrapeWithRetry (fun _ => (Except.error "boom" : Except String Nat)) 3 =
      ⟨none, some "boom", [1, 2], 3⟩ := by
  have h := C6_retry_always_fails (fun _ => (Except.error "boom" : Except String Nat))
    (fun _ => "boom") 3 (by omega) (fun j _ => rfl)
  exact h.trans (by rfl)

theorem executed_of_determine (sel pw : Bool) (url : String) :
    executedStrategyName sel pw (determine_scraping_method sel pw url) =
      determine_scraping_method sel pw url := by
  unfold determine_scraping_method executedStrategyName
  by_cases h1 : matchesPdfPatterns url
  · simp [h1]
  · by_cases h2 : matchesGovPatterns url
    · cases sel <;> cases pw <;> simp [h1, h2]
    · simp [h1, h2]

/-- C7 counterexample: with Selenium unavailable but Playwright installed, an
explicit `method='selenium'` request on a valid URL succeeds through the
requests strategy (the instrumented trace shows `["requests"]` — the other
dynamic engine is NOT substituted), yet `method_used` still reads
`"selenium"`: it names the originally chosen strategy, not the one that
succeeded. -/
theorem C7_counterexample :
    envRequestsOnly.selenium_available = false ∧
    envRequestsOnly.playwright_available = true ∧
    (scrapeUrlT envRequestsOnly "https://example.com/page" "selenium").1.status = "success" ∧
    (scrapeUrlT envRequestsOnly "https://example.com/page" "selenium").2 = ["requests"] ∧
    (scrapeUrlT envRequestsOnly "https://example.com/page" "selenium").1.method_used = "selenium" :=
  ⟨rfl, rfl, rfl, rfl, rfl⟩

/-- C7 amended: only in `'auto'` mode does `method_used` name the strategy
actually invoked (the classifier already resolves availability, so the
dispatched strategy is exactly the classified one); for an explicitly
requested dynamic engine — either `selenium` or `playwright` — that is
unavailable, the requests strategy runs, with no substitution of the other
dynamic engine, while `method_used` keeps the requested name. -/
theorem C7_amended_method_used (env : ScrapeEnv) (url : String)
    (h : is_valid_url url = true) :
    (scrapeUrlT env url "auto").2 = [(scrapeUrlT env url "auto").1.method_used] ∧
    (env.selenium_available = false →
      (scrapeUrlT env url "selenium").2 = ["requests"] ∧
      (scrapeUrlT env url "selenium").1.method_used = "selenium") ∧
    (env.playwright_available = false →
      (scrapeUrlT env url "playwright").2 = ["requests"] ∧
      (scrapeUrlT env url "playwright").1.method_used = "playwright") := by
  refine ⟨?_, ?_, ?_⟩
  · simp only [scrapeUrlT, h]
    cases hr : runStrategy env
        (determine_scraping_method env.selenium_available env.playwright_available url) url <;>
      simp [hr, executed_of_determine, errorResult]
  · intro hsel
    simp only [scrapeUrlT, h, hsel]
    cases hr : runStrategy env "selenium" url <;>
      simp [hr, executedStrategyName, errorResult]
  · intro hpw
    simp only [scrapeUrlT, h, hpw]
    cases hr : runStrategy env "playwright" url <;>
      simp [hr, executedStrategyName, errorResult]

/-- Witness for the amended C7 at a concrete environment with neither dynamic
engine installed: both explicit requests run the requests strategy while
keeping the requested name, and `'auto'` traces its own `method_used`. -/
theorem C7_amended_method_used_witness :
    ((scrapeUrlT envAllFail "https://example.com/page" "auto").2 =
      [(scrapeUrlT envAllFail "https://example.com/page" "auto").1.method_used]) ∧
    ((scrapeUrlT envAllFail "https://example.com/page" "selenium").2 = ["requests"] ∧
     (scrapeUrlT envAllFail "https://example.com/page" "selenium").1.method_used = "selenium") ∧
    ((scrapeUrlT envAllFail "https://example.com/page" "playwright").2 = ["requests"] ∧
     (scrapeUrlT envAllFail "https://example.com/page" "playwright").1.method_used = "playwright") := by
  have h := C7_amended_method_used envAllFail "https://example.com/page" rfl
  exact ⟨h.1, h.2.1 rfl, h.2.2 rfl⟩

/-- C8 counterexample: extraction mutates the document (the destructive
decompose of `_extract_text_content`), so applying the extraction step twice
to the same document can change the title: here the only `<title>` sits inside
a `<header>`, the first pass reads `"X"`, the second pass — running on the
stripped document the first pass left behind — falls back to the `<h1>` and
reads `"Y"`. -/
theorem C8_counterexample :
    (extract_all joinKeep hiddenTitleDoc "b").1.title = "X" ∧
    (extract_all joinKeep (extract_all joinKeep hiddenTitleDoc "b").2 "b").1.title = "Y" :=
  ⟨rfl, rfl⟩

/-- C8 amended: re-running the extraction step on the document state the first
run left behind reproduces `content`, `images`, `links` and `pdfs` exactly
(stripping is idempotent); the `title` — and hence the whole five-field result
— also coincides whenever the title extracted from the stripped document
equals the original one, i.e. unless the first title/h1 found was inside a
removed script/style/nav/footer/header element. -/
theorem C8_amended_extraction_idem (join : String → String → String)
    (f : Forest) (base : String) :
    (extract_all join (extract_all join f base).2 base).2 = (extract_all join f base).2 ∧
    (extract_all join (extract_all join f base).2 base).1.content =
      (extract_all join f base).1.content ∧
    (extract_all join (extract_all join f base).2 base).1.images =
      (extract_all join f base).1.images ∧
    (extract_all join (extract_all join f base).2 base).1.links =
      (extract_all join f base).1.links ∧
    (extract_all join (extract_all join f base).2 base).1.pdfs =
      (extract_all join f base).1.pdfs ∧
    (extract_title (extract_all join f base).2 = extract_title f →
      extract_all join (extract_all join f base).2 base = extract_all join f base) := by
  simp only [extract_all, extract_text_content, stripForest_idem]
  exact ⟨trivial, trivial, trivial, trivial, trivial, fun h => by rw [h]⟩

/-- Witness for the amended C8 on a document whose title survives stripping:
the second extraction reproduces the first exactly. -/
theorem C8_amended_extraction_idem_witness :
    extract_all joinKeep (extract_all joinKeep plainDoc "b").2 "b" =
      extract_all joinKeep plainDoc "b" := by
  have h := C8_amended_extraction_idem joinKeep plainDoc "b"
  exact h.2.2.2.2.2 (by rfl)

theorem scrape_multiple_eq_filterMap (run : String → Except String ScrapedContent)
    (urls : List String) :
    scrape_multiple_urls run urls = urls.filterMap (fun u => (run u).toOption) := by
  unfold scrape_multiple_urls
  induction urls with
  | nil => rfl
  | cons u us ih =>
    simp only [List.map_cons, List.filterMap_cons]
    cases hr : run u with
    | error e => simpa [filterScraped, hr, Except.toOption] using ih
    | ok r => simpa [filterScraped, hr, Except.toOption] using ih

/-- C9: the batch coordinator returns exactly one entry per per-URL call that
completed normally — including calls whose result has `status = 'error'` —
and drops (logs) every URL whose call raised, without aborting the batch:
its output is the in-order sequence of successfully returned records, every
normally returned record appears, and nothing else does. -/
theorem C9_batch_drops_exceptions (run : String → Except String ScrapedContent)
    (urls : List String) :
    scrape_multiple_urls run urls = urls.filterMap (fun u => (run u).toOption) ∧
    (∀ u r, u ∈ urls → run u = Except.ok r → r ∈ scrape_multiple_urls run urls) ∧
    (∀ r, r ∈ scrape_multiple_urls run urls → ∃ u, u ∈ urls ∧ run u = Except.ok r) := by
  refine ⟨scrape_multiple_eq_filterMap run urls, ?_, ?_⟩
  · intro u r hu hr
    rw [scrape_multiple_eq_filterMap]
    exact List.mem_filterMap.mpr ⟨u, hu, by simp [hr, Except.toOption]⟩
  · intro r hr
    rw [scrape_multiple_eq_filterMap] at hr
    rcases List.mem_filterMap.mp hr with ⟨u, hu, he⟩
    refine ⟨u, hu, ?_⟩
    cases h2 : run u with
    | error e => rw [h2] at he; exact absurd he (by simp [Except.toOption])
    | ok a =>
      rw [h2] at he
      simp [Except.toOption] at he
      rw [he]

/-- Witness for C9 on a concrete batch: the success and the error-status
record are both returned in order, the raising URL's slot is dropped. -/
theorem C9_batch_drops_exceptions_witness :
    scrape_multiple_urls runBatch
      ["https://a.example/", "https://b.example/", "https://crash.example/"] =
      [scOk, scErr] ∧ scErr.status = "error" := by
  have h := (C9_batch_drops_exceptions runBatch
    ["https://a.example/", "https://b.example/", "https://crash.example/"]).1
  exact ⟨h.trans (by rfl), rfl⟩

end ScraperModel
